import Mathlib

/-!
Verification of the mail-merge letter generator (two near-identical app
variants, `app.py` and `mailmerge_ui_streamlit_en/app.py`).  The pure core
of the program is embedded below: cell values and rows, the placeholder
resolver `replace_placeholders_dynamic`, the filename sanitizer and
formatter, the group-to-template dispatch, the letter composer (modelled as
the list of paragraphs it appends), the header/footer banner layout on the
document section, and the batch-generation loop that fills a zip archive.

Python floats used for page geometry are modelled as rationals; Python
strings as Lean strings (lists of characters).  Recursions that consume a
variable number of characters per step are written with an explicit fuel
argument equal to the input length, so that every definition is structural
and computable by the kernel.
-/

namespace MailMerge

/-- Scalar cell values of a dataset row: strings, integers, or the pandas
missing-value marker NaN (the spec's "empty marker").  Excel floats other
than NaN are not needed by any claim and are omitted. -/
inductive Value where
  | s (v : String)
  | i (n : Int)
  | na
deriving DecidableEq, Repr

/-- Python `str()` on cell values.  Note `str(float("nan"))` is `"nan"`. -/
def pyStr : Value → String
  | .s v => v
  | .i n => toString n
  | .na => "nan"

/-- pandas `pd.isna` on a cell value. -/
def isna : Value → Bool
  | .na => true
  | _ => false

/-- A dataset row, as produced by `df.iloc[i].to_dict()`: a finite mapping
from column name to value, modelled as an association list (keys unique in
practice; lookup takes the first binding). -/
abbrev Row := List (String × Value)

/-- Python `row.get(k, d)`. -/
def rowGetD (row : Row) (k : String) (d : Value) : Value :=
  (List.lookup k row).getD d

/-- Python `k in row` followed by `str(row[k])`, with missing keys mapped to
the empty string: the replacement value used by the placeholder resolver. -/
def lookupStr (row : Row) (key : String) : String :=
  match List.lookup key row with
  | some v => pyStr v
  | none => ""

/-- Python whitespace for `str.strip()` (ASCII part; exotic unicode spaces
are not modelled). -/
def isPySpace (c : Char) : Bool :=
  c == ' ' || c == '\t' || c == '\n' || c == '\r' || c == '\x0b' || c == '\x0c'

/-- Python `str.strip()` on a character list: drop leading and trailing
whitespace. -/
def pyStrip (l : List Char) : List Char :=
  ((l.dropWhile isPySpace).reverse.dropWhile isPySpace).reverse

/-- Python `str.strip()` on a string. -/
def pyStripStr (s : String) : String := ⟨pyStrip s.data⟩

/-- Characters allowed inside a double-brace capture: the regex class
`[^}]` of `replace_placeholders_dynamic`. -/
def notBrace (c : Char) : Bool := c != '}'

/-- The function `repl` inside `replace_placeholders_dynamic`: strip the
captured field name, return `str(row[key])` if the key is present and the
empty string otherwise. -/
def replVal (row : Row) (k : List Char) : String :=
  lookupStr row (pyStripStr ⟨k⟩)

/-- The attempt to match `([^}]+)` and two closing braces right after two
open braces: the greedy nonempty run of non-close-brace characters must be
followed by two close braces (greediness never backtracks here, since the
character after the run is either a close brace or the end of the text).
Returns the capture and the remainder after the match, or `none` when the
regex fails at this position. -/
def tokenSplit (rest : List Char) : Option (List Char × List Char) :=
  if (rest.takeWhile notBrace).isEmpty then none
  else if (rest.dropWhile notBrace).take 2 = ['}', '}'] then
    some (rest.takeWhile notBrace, (rest.dropWhile notBrace).drop 2)
  else none

/-- The attempt to match the whole token pattern at the current position:
two open braces followed by a successful `tokenSplit`.  Returns the
capture and the remainder after the match. -/
def tokenAt (cs : List Char) : Option (List Char × List Char) :=
  match cs with
  | '{' :: '{' :: rest => tokenSplit rest
  | _ => none

/-- One left-to-right pass of `re.sub` with the double-brace token pattern
of `replace_placeholders_dynamic`.  At each position: if the full token
pattern matches, emit the replacement and continue after the match;
otherwise emit one character and continue at the next position.  The fuel
argument makes the recursion structural; fuel equal to the input length
always suffices since every step consumes at least one character. -/
def resolveGo (row : Row) : Nat → List Char → List Char
  | 0, cs => cs
  | _ + 1, [] => []
  | fuel + 1, c :: cs =>
    match tokenAt (c :: cs) with
    | some (k, rest2) => (replVal row k).data ++ resolveGo row fuel rest2
    | none => c :: resolveGo row fuel cs

/-- `replace_placeholders_dynamic(text, row)` from the source: substitute
every `{{Field}}` token (missing field → empty string). -/
def replace_placeholders_dynamic (text : String) (row : Row) : String :=
  ⟨resolveGo row text.data.length text.data⟩

/-- The reserved filename characters of `sanitize_filename`:
backslash, slash, star, question mark, colon, double quote, angle
brackets, pipe. -/
def isReserved (c : Char) : Bool :=
  c == '\\' || c == '/' || c == '*' || c == '?' || c == ':' ||
  c == '"' || c == '<' || c == '>' || c == '|'

/-- `re.sub` with a one-or-more character class: every maximal run of
reserved characters becomes a single underscore.  The boolean argument
records whether the previous character belonged to a reserved run. -/
def subResGo : List Char → Bool → List Char
  | [], _ => []
  | c :: cs, prev =>
    if isReserved c then
      if prev then subResGo cs true else '_' :: subResGo cs true
    else c :: subResGo cs false

/-- `sanitize_filename(name)` from the source: collapse runs of reserved
characters to underscores, strip whitespace, fall back to `"letter"` when
the result is empty. -/
def sanitize_filename (name : String) : String :=
  let cleaned := pyStrip (subResGo name.data false)
  if cleaned.isEmpty then "letter" else ⟨cleaned⟩

/-- Characters of a string lowercased (Python `str.lower`, ASCII part). -/
def lowerData (s : String) : List Char := s.data.map Char.toLower

/-- Python `name.lower().endswith(".docx")`: the last five lowercased
characters are `.docx`. -/
def endsWithDocx (s : String) : Bool :=
  decide ((lowerData s).drop ((lowerData s).length - 5) = ".docx".data)

/-- Characters that terminate a single-brace replacement field of Python
`str.format_map`. -/
def notFmtEnd (c : Char) : Bool := c != '}' && c != '{'

/-- SafeDict lookup of `format_filename_from_pattern`: a missing key
formats as the empty string. -/
def fmtLookup (row : Row) (k : List Char) : List Char :=
  (lookupStr row ⟨k⟩).data

/-- Python `pattern.format_map(SafeDict(row))`, modelled on the format
mini-language as used here: a doubled brace is an escaped literal brace, a
single open brace starts a replacement field whose text up to the closing
brace is the lookup key (missing key → empty string via SafeDict), and a
malformed pattern (unmatched brace, empty field name) is an error
(`none`), which the caller turns into the fallback name.  Conversion and
format-spec suffixes of the mini-language are not modelled: the text
between the braces is used verbatim as the lookup key. -/
def formatMapGo (row : Row) : Nat → List Char → Option (List Char)
  | _, [] => some []
  | 0, _ :: _ => none
  | fuel + 1, c :: cs =>
    if c = '{' then
      match cs with
      | '{' :: rest => (formatMapGo row fuel rest).map (fun t => '{' :: t)
      | _ =>
        match cs.takeWhile notFmtEnd, cs.dropWhile notFmtEnd with
        | k, '}' :: rest2 =>
          if k.isEmpty then none
          else (formatMapGo row fuel rest2).map (fun t => fmtLookup row k ++ t)
        | _, _ => none
    else if c = '}' then
      match cs with
      | '}' :: rest => (formatMapGo row fuel rest).map (fun t => '}' :: t)
      | _ => none
    else (formatMapGo row fuel cs).map (fun t => c :: t)

/-- `pattern.format_map(SafeDict(row))` wrapped with the source's
`try/except`: an error yields the fallback name `"letter"`. -/
def pyFormatMap (p : String) (row : Row) : Option String :=
  (formatMapGo row p.data.length p.data).map (fun l => (⟨l⟩ : String))

/-- The substitution-and-sanitization prefix of
`format_filename_from_pattern`: format the pattern (exception → "letter"),
then sanitize. -/
def substSanitized (pattern : String) (row : Row) : String :=
  sanitize_filename (match pyFormatMap pattern row with
    | some s => s
    | none => "letter")

/-- `format_filename_from_pattern(pattern, row)` from the source: format,
sanitize, then append `".docx"` unless the name already ends with it
case-insensitively. -/
def format_filename_from_pattern (pattern : String) (row : Row) : String :=
  let name := substSanitized pattern row
  if endsWithDocx name then name else name ++ ".docx"

/-- Result of the group dispatch in skip mode. -/
inductive DispatchResult where
  | found (tpl : String)
  | notFound
deriving DecidableEq, Repr

/-- `str(row.get(group_col, ""))`: the row's group value in string form. -/
def groupVal (row : Row) (gcol : String) : String :=
  pyStr (rowGetD row gcol (.s ""))

/-- The `if/elif` chain of the batch loop: compare the group value against
the blue, green and yellow labels in that order; on no match signal
NotFound (the row is skipped by the caller). -/
def dispatchSkip (row : Row) (gcol bl gr ye tb tg ty : String) : DispatchResult :=
  let gval := groupVal row gcol
  if gval = bl then .found tb
  else if gval = gr then .found tg
  else if gval = ye then .found ty
  else .notFound

/-- The `if/elif` chain of the single-row preview: same comparisons, but on
no match fall back to the blue template. -/
def dispatchFallback (row : Row) (gcol bl gr ye tb tg ty : String) : String :=
  let gval := groupVal row gcol
  if gval = bl then tb
  else if gval = gr then tg
  else if gval = ye then ty
  else tb

/-- Modelled from the claim wording for comparison: scan the configured
(label, template) pairs in priority order and return the first template
whose label equals the group value. -/
def firstMatch (g : String) : List (String × String) → Option String
  | [] => none
  | (l, t) :: rest => if g = l then some t else firstMatch g rest

/-- A paragraph of the composed letter: its text and whether its run is
bold.  Font name, size and alignment are constant over a run of the app
and are omitted. -/
abbrev Para := String × Bool

/-- `add_ltr_paragraph(doc, text, ..., bold)`: append one paragraph. -/
def add_ltr_paragraph (doc : List Para) (text : String) (bold : Bool) : List Para :=
  doc ++ [(text, bold)]

/-- The header-field rendering of `build_letter_docx`:
`val = row.get(col, ""); if pd.isna(val): val = ""; str(val)`. -/
def headerVal (row : Row) (col : String) : String :=
  let v := rowGetD row col (.s "")
  if isna v then "" else pyStr v

/-- Characters that end a line for Python `str.splitlines` (the `\n`, `\r`
and `\r\n` boundaries; rarer unicode boundaries are not modelled). -/
def notNL (c : Char) : Bool := c != '\n' && c != '\r'

/-- Python `str.splitlines`: split on line boundaries, treating `\r\n` as a
single boundary; a trailing boundary does not produce a final empty line.
Fuel equal to the input length suffices since every step consumes at least
one character. -/
def pySplitlinesGo : Nat → List Char → List (List Char)
  | 0, _ => []
  | _ + 1, [] => []
  | fuel + 1, l =>
    let line := l.takeWhile notNL
    match l.dropWhile notNL with
    | [] => [line]
    | '\r' :: '\n' :: r => line :: pySplitlinesGo fuel r
    | _ :: r => line :: pySplitlinesGo fuel r

/-- Python `str.splitlines` on a string. -/
def pySplitlines (s : String) : List String :=
  (pySplitlinesGo s.data.length s.data).map (fun l => (⟨l⟩ : String))

/-- The paragraph content appended by `build_letter_docx`, in source order:
bold salutation, one paragraph per configured header field, one empty
spacer paragraph (`doc.add_paragraph("")`), then one paragraph per line of
the placeholder-resolved body.  The serialized docx bytes are modelled by
this paragraph list (the per-run layout is constant across rows). -/
def build_letter_paras (row : Row) (salutation : String)
    (ordered_fields : List String) (body_template : String) : List Para :=
  let doc : List Para := []
  let doc := add_ltr_paragraph doc salutation true
  let doc := ordered_fields.foldl
    (fun d col => add_ltr_paragraph d (headerVal row col) false) doc
  let doc := doc ++ [("", false)]
  let body_filled := replace_placeholders_dynamic body_template row
  (pySplitlines body_filled).foldl
    (fun d line => add_ltr_paragraph d line false) doc

/-- The page-geometry state of the single document section: all lengths in
EMU, as python-docx stores them (Python floats modelled as rationals). -/
structure Sect where
  pageWidth : Rat
  leftMargin : Rat
  rightMargin : Rat
  topMargin : Rat
  bottomMargin : Rat
  headerDistance : Rat
  footerDistance : Rat

/-- The layout-relevant state of a document: its section geometry and the
widths of the pictures inserted in the header and footer paragraphs. -/
structure HFDoc where
  sect : Sect
  headerPicWidths : List Rat
  footerPicWidths : List Rat

/-- `EMU_PER_INCH = 914400` from the source. -/
def EMU_PER_INCH : Rat := 914400

/-- python-docx `Inches(x)`: a length of x inches in EMU. -/
def Inches (x : Rat) : Rat := x * EMU_PER_INCH

/-- `page_width_in(section)`: the full physical page width in inches. -/
def page_width_in (s : Sect) : Rat := s.pageWidth / EMU_PER_INCH

/-- `content_width_in(section)`: page width minus left and right margins,
in inches (second app variant). -/
def content_width_in (s : Sect) : Rat :=
  (s.pageWidth - s.leftMargin - s.rightMargin) / EMU_PER_INCH

/-- `set_section_margins(section, l, r, t, b)` from the source. -/
def set_section_margins (s : Sect) (l r t b : Rat) : Sect :=
  { s with leftMargin := Inches l, rightMargin := Inches r,
           topMargin := Inches t, bottomMargin := Inches b }

/-- Which banner inputs the caller supplied for one edge: uploaded bytes
and/or an existing fallback file at the well-known path. -/
structure BannerInput where
  bytesGiven : Bool
  pathExists : Bool

/-- A picture is inserted for an edge iff bytes were supplied or the
fallback path exists (`if top_bytes is not None ... elif top_path and
top_path.exists()`). -/
def BannerInput.present (bi : BannerInput) : Bool := bi.bytesGiven || bi.pathExists

/-- `add_fullwidth_banners` (first app variant): zero the header and footer
distances, insert banners at full page width; margins are not touched. -/
def add_fullwidth_banners (doc : HFDoc) (top bottom : BannerInput) : HFDoc :=
  let sect := { doc.sect with headerDistance := Inches 0, footerDistance := Inches 0 }
  let fullW := page_width_in sect
  { sect := sect,
    headerPicWidths := doc.headerPicWidths ++
      (if top.present then [Inches fullW] else []),
    footerPicWidths := doc.footerPicWidths ++
      (if bottom.present then [Inches fullW] else []) }

/-- `add_banner_to_header_footer` (second app variant): save the current
margins and distances; in edge-to-edge mode zero everything, size banners
to the full page width, then set all four margins to the requested text
margin with header/footer distances kept at zero; otherwise size banners
to the content width and restore the saved values. -/
def add_banner_to_header_footer (doc : HFDoc) (top bottom : BannerInput)
    (edge_to_edge : Bool) (text_margin_in : Rat) : HFDoc :=
  let sect0 := doc.sect
  let origL := sect0.leftMargin / EMU_PER_INCH
  let origR := sect0.rightMargin / EMU_PER_INCH
  let origT := sect0.topMargin / EMU_PER_INCH
  let origB := sect0.bottomMargin / EMU_PER_INCH
  let origHD := sect0.headerDistance / EMU_PER_INCH
  let origFD := sect0.footerDistance / EMU_PER_INCH
  let sect1 :=
    if edge_to_edge then
      { set_section_margins sect0 0 0 0 0 with
        headerDistance := Inches 0, footerDistance := Inches 0 }
    else sect0
  let widthIn := if edge_to_edge then page_width_in sect1 else content_width_in sect1
  let hps := doc.headerPicWidths ++ (if top.present then [Inches widthIn] else [])
  let fps := doc.footerPicWidths ++ (if bottom.present then [Inches widthIn] else [])
  let sect2 :=
    if edge_to_edge then
      { set_section_margins sect1 text_margin_in text_margin_in text_margin_in text_margin_in with
        headerDistance := Inches 0, footerDistance := Inches 0 }
    else
      { set_section_margins sect1 origL origR origT origB with
        headerDistance := Inches origHD, footerDistance := Inches origFD }
  { sect := sect2, headerPicWidths := hps, footerPicWidths := fps }

/-- The layout part of `build_letter_docx` in the first app variant: a
fresh document (arbitrary blank-document section defaults, no pictures),
margins set from the caller's margin dict, then full-width banners. -/
def build_letter_layout_v1 (blank : Sect) (l r t b : Rat)
    (top bottom : BannerInput) : HFDoc :=
  let doc : HFDoc := { sect := blank, headerPicWidths := [], footerPicWidths := [] }
  let doc := { doc with sect := set_section_margins doc.sect l r t b }
  add_fullwidth_banners doc top bottom

/-- The layout part of `build_letter_docx` in the second app variant: a
fresh document handed straight to `add_banner_to_header_footer`. -/
def build_letter_layout_v2 (blank : Sect) (top bottom : BannerInput)
    (edge_to_edge : Bool) (text_margin_in : Rat) : HFDoc :=
  add_banner_to_header_footer
    { sect := blank, headerPicWidths := [], footerPicWidths := [] }
    top bottom edge_to_edge text_margin_in

/-- A generated letter artifact: the composed paragraph content standing
for the serialized docx bytes. -/
abbrev Letter := List Para

/-- Decidable equality of run results, so that concrete batch outcomes can
be evaluated by the kernel. -/
instance exceptDecEq {ε α : Type} [DecidableEq ε] [DecidableEq α] :
    DecidableEq (Except ε α) := fun x y =>
  match x, y with
  | .error a, .error b => decidable_of_iff (a = b) (by simp)
  | .ok a, .ok b => decidable_of_iff (a = b) (by simp)
  | .error _, .ok _ => isFalse (by simp)
  | .ok _, .error _ => isFalse (by simp)

/-- Stepping-stone instance keeping each instance search small. -/
instance pairDecEq : DecidableEq (List String × List (String × Letter)) :=
  inferInstance

/-- Decidable equality of the (count, skipped, entries) result triple. -/
instance resultDecEq : DecidableEq (Nat × List String × List (String × Letter)) :=
  inferInstance

/-- The payloads a per-row banner read can produce in the program.  An
`st.file_uploader` result is a BytesIO-like stream holding one uploaded
image (the uploader restricts types to PNG/JPG; the uploaded file is a
genuine image, abstracted by an identifier): the first `.read()` of a run
returns its full bytes, every later `.read()` returns the empty bytes
b"".  So the reachable payloads are exactly a full image or b"". -/
inductive Payload where
  | image (id : Nat)
  | empty
deriving DecidableEq, Repr

/-- The per-rerun state of one `st.file_uploader` stream: the uploaded
image and whether the stream position is already at end-of-file.  The
preview section calls `.read()` on the same stream earlier in the same
script rerun than the batch block, so at batch entry an uploaded stream is
typically already consumed. -/
structure UploadStream where
  img : Nat
  consumed : Bool
deriving DecidableEq, Repr

/-- Python `f.read() if f else None` on an upload: `none` when no file was
uploaded; otherwise the first read returns the image bytes and any later
read returns b"" (`Payload.empty`); reading leaves the stream at
end-of-file. -/
def readUpload : Option UploadStream → Option Payload × Option UploadStream
  | none => (none, none)
  | some s =>
    (some (if s.consumed then Payload.empty else Payload.image s.img),
     some { s with consumed := true })

/-- `run.add_picture` on the banner payloads of `build_letter_docx`: with
payload bytes `is not None` the picture is parsed, and python-docx raises
UnrecognizedImageError when the bytes are not a recognized image — always
the case for the empty b"" of an exhausted stream, never for the uploaded
image.  With no payload (`none`) the code falls back to the well-known
file path, which re-reads a real file per row and does not raise (the
region stays empty when the file is absent). -/
def bannerOk : Option Payload → Except Unit Unit
  | some Payload.empty => .error ()
  | some (Payload.image _) => .ok ()
  | none => .ok ()

/-- The banner insertion of one `build_letter_docx` call: header (top)
picture first, then footer (bottom), propagating the first
UnrecognizedImageError. -/
def bannersResult (topB bottomB : Option Payload) : Except Unit Unit :=
  match bannerOk topB with
  | .error e => .error e
  | .ok _ => bannerOk bottomB

/-- The configuration the batch loop reads: group column, the three group
labels and templates, salutation, ordered header fields, filename
pattern, and the upload streams of the two banner file uploaders (`none`
when no file was uploaded). -/
structure BatchCfg where
  gcol : String
  blueLabel : String
  greenLabel : String
  yellowLabel : String
  tplBlue : String
  tplGreen : String
  tplYellow : String
  salutation : String
  headerFields : List String
  filenamePattern : String
  topStream : Option UploadStream
  bottomStream : Option UploadStream

/-- The identifier recorded for a skipped row:
`row.get('FullName', '')` in string form, as in the skip warning. -/
def skipId (r : Row) : String := pyStr (rowGetD r "FullName" (.s ""))

/-- Dispatch of one row under the batch configuration (skip policy). -/
def cfgDispatch (cfg : BatchCfg) (r : Row) : DispatchResult :=
  dispatchSkip r cfg.gcol cfg.blueLabel cfg.greenLabel cfg.yellowLabel
    cfg.tplBlue cfg.tplGreen cfg.tplYellow

/-- Whether a row's group value matches one of the configured labels. -/
def matchesRow (cfg : BatchCfg) (r : Row) : Bool :=
  match cfgDispatch cfg r with
  | .found _ => true
  | .notFound => false

/-- The template a matched row dispatches to (blue for unmatched rows,
which the batch loop never composes). -/
def rowTpl (cfg : BatchCfg) (r : Row) : String :=
  match cfgDispatch cfg r with
  | .found t => t
  | .notFound => cfg.tplBlue

/-- The letter composed for one row. -/
def rowLetter (cfg : BatchCfg) (r : Row) (tpl : String) : Letter :=
  build_letter_paras r cfg.salutation cfg.headerFields tpl

/-- One `build_letter_docx` call as made inside the batch loop: the banner
pictures are inserted first from the per-row payloads (raising
UnrecognizedImageError on the empty payload of an exhausted stream); on
success the serialized letter is the composed paragraph content. -/
def rowLetterResult (cfg : BatchCfg) (r : Row) (tpl : String)
    (topB bottomB : Option Payload) : Except Unit Letter :=
  (bannersResult topB bottomB).map (fun _ => rowLetter cfg r tpl)

/-- The archive entry written for one matched row: formatted filename and
letter content. -/
def batchEntry (cfg : BatchCfg) (r : Row) : String × Letter :=
  (format_filename_from_pattern cfg.filenamePattern r,
   rowLetter cfg r (rowTpl cfg r))

/-- The batch-generation loop: iterate rows in dataset order; an unmatched
row is recorded in the skipped list (by its FullName identifier) and the
loop continues; a matched row re-reads both banner upload streams
(`top_banner_file.read() if top_banner_file else None`, evaluated per row
when building the `build_letter_docx` arguments), composes the letter,
formats the filename, and appends the named payload to the zip archive
(`z.writestr`), incrementing the produced count.  An
UnrecognizedImageError raised by `add_picture` on an exhausted stream's
empty payload is uncaught: it aborts the whole run, and no count, skipped
list or archive is delivered (`Except.error`).  On completion the result
is (count, skipped identifiers, archive entries in write order). -/
def runBatch (cfg : BatchCfg) :
    List Row → Except Unit (Nat × List String × List (String × Letter))
  | [] => .ok (0, [], [])
  | r :: rs =>
    match cfgDispatch cfg r with
    | .notFound =>
      (runBatch cfg rs).map (fun res => (res.1, skipId r :: res.2.1, res.2.2))
    | .found tpl =>
      let fn := format_filename_from_pattern cfg.filenamePattern r
      let rdTop := readUpload cfg.topStream
      let rdBot := readUpload cfg.bottomStream
      match rowLetterResult cfg r tpl rdTop.1 rdBot.1 with
      | .error e => .error e
      | .ok letter =>
        (runBatch { cfg with topStream := rdTop.2, bottomStream := rdBot.2 } rs).map
          (fun res => (res.1 + 1, res.2.1, (fn, letter) :: res.2.2))

/-- Reading an archive entry by name, as `ZipFile.read`/extraction does:
of all raw entries written under that name, the last one wins. -/
def archiveRead (entries : List (String × Letter)) (n : String) : Option Letter :=
  ((entries.filter (fun e => e.1 == n)).getLast?).map (fun e => e.2)

/-- The loaded dataset: its column names and its rows. -/
structure Dataset where
  cols : List String
  rows : List Row

/-- The "Generate all" handler including its precondition checks: with no
dataset loaded, or with a selected group column absent from the dataset's
columns, a user-facing error is reported (`st.error` + `st.stop`) and the
batch does not run.  The outer `Except String` is the reported
precondition-error channel; when the checks pass, the loop runs and its
own uncaught-exception channel is the inner `Except Unit`. -/
def generate_all (odf : Option Dataset) (cfg : BatchCfg) :
    Except String (Except Unit (Nat × List String × List (String × Letter))) :=
  match odf with
  | none => .error "Please upload an Excel file first."
  | some df =>
    if cfg.gcol ∈ df.cols then .ok (runBatch cfg df.rows)
    else .error "Group column selection is invalid."

/-- Modelled from the claim wording, for refutation only: replace every
reserved character by one underscore each (no run collapsing), then strip
and fall back to "letter" when empty. -/
def sanitizeSpecPerChar (name : String) : String :=
  let cleaned := pyStrip (name.data.map (fun c => if isReserved c then '_' else c))
  if cleaned.isEmpty then "letter" else ⟨cleaned⟩

/-- The batch configuration of the duplicate-filename scenario: a constant
filename pattern so every matched row produces "out.docx"; no banner
files uploaded. -/
def cfgDup : BatchCfg :=
  { gcol := "G", blueLabel := "B", greenLabel := "GR", yellowLabel := "Y",
    tplBlue := "b {{N}}", tplGreen := "g", tplYellow := "y",
    salutation := "To,", headerFields := [], filenamePattern := "out",
    topStream := none, bottomStream := none }

/-- First row of the duplicate-filename scenario. -/
def rowDupA : Row := [("G", Value.s "B"), ("N", Value.s "1")]

/-- Second row of the duplicate-filename scenario. -/
def rowDupB : Row := [("G", Value.s "B"), ("N", Value.s "2")]

/-- The same configuration with a top banner uploaded and its stream not
yet read in this rerun. -/
def cfgUpload : BatchCfg :=
  { cfgDup with topStream := some { img := 0, consumed := false } }

/-- The result the duplicate-filename run delivers: two letters, nothing
skipped, two archive entries under the same name. -/
def resDup : Nat × List String × List (String × Letter) :=
  (2, [], [batchEntry cfgDup rowDupA, batchEntry cfgDup rowDupB])

/-! ### Helper lemmas -/

theorem dropWhile_length_le {α} (p : α → Bool) :
    ∀ l : List α, (l.dropWhile p).length ≤ l.length := by
  intro l
  induction l with
  | nil => simp
  | cons a l ih =>
    by_cases h : p a
    · simpa [List.dropWhile_cons_of_pos h] using Nat.le_succ_of_le ih
    · simp [List.dropWhile_cons_of_neg h]

theorem takeWhile_nb_append (k ys : List Char) (hk : ∀ c ∈ k, c ≠ '}') :
    (k ++ '}' :: ys).takeWhile notBrace = k := by
  induction k with
  | nil => simp [notBrace]
  | cons a k ih =>
    have ha : notBrace a = true := by
      simpa [notBrace] using hk a (by simp)
    simp only [List.cons_append, List.takeWhile_cons_of_pos ha]
    exact congrArg (a :: ·) (ih (fun c hc => hk c (by simp [hc])))

theorem dropWhile_nb_append (k ys : List Char) (hk : ∀ c ∈ k, c ≠ '}') :
    (k ++ '}' :: ys).dropWhile notBrace = '}' :: ys := by
  induction k with
  | nil => simp [notBrace]
  | cons a k ih =>
    have ha : notBrace a = true := by
      simpa [notBrace] using hk a (by simp)
    simp only [List.cons_append, List.dropWhile_cons_of_pos ha]
    exact ih (fun c hc => hk c (by simp [hc]))

theorem tokenAt_cons_ne (c : Char) (cs : List Char) (hc : c ≠ '{') :
    tokenAt (c :: cs) = none := by
  cases cs with
  | nil => simp [tokenAt, hc]
  | cons c2 cs => simp [tokenAt, hc]

theorem tokenAt_snd_ne (c2 : Char) (cs : List Char) (hc2 : c2 ≠ '{') :
    tokenAt ('{' :: c2 :: cs) = none := by
  simp [tokenAt, hc2]

/-- A step of the scanner when the token pattern does not match here. -/
theorem resolveGo_step_none (row : Row) (fuel : Nat) (c : Char) (cs : List Char)
    (h : tokenAt (c :: cs) = none) :
    resolveGo row (fuel + 1) (c :: cs) = c :: resolveGo row fuel cs := by
  simp [resolveGo, h]

/-- A step of the scanner when the token pattern matches here. -/
theorem resolveGo_step_some (row : Row) (fuel : Nat) (c : Char) (cs k rest2 : List Char)
    (h : tokenAt (c :: cs) = some (k, rest2)) :
    resolveGo row (fuel + 1) (c :: cs)
      = (replVal row k).data ++ resolveGo row fuel rest2 := by
  simp [resolveGo, h]

theorem resolveGo_cons (row : Row) (fuel : Nat) (c : Char) (cs : List Char)
    (hc : c ≠ '{') :
    resolveGo row (fuel + 1) (c :: cs) = c :: resolveGo row fuel cs :=
  resolveGo_step_none row fuel c cs (tokenAt_cons_ne c cs hc)

/-- A successful token match consumes the capture and the two closing
braces: the remainder is shorter than the scanned text by at least two. -/
theorem tokenSplit_some_length {rest k rest2 : List Char}
    (h : tokenSplit rest = some (k, rest2)) : rest2.length + 2 ≤ rest.length := by
  have hsum : (rest.takeWhile notBrace).length + (rest.dropWhile notBrace).length
      = rest.length := by
    have := congrArg List.length (@List.takeWhile_append_dropWhile _ notBrace rest)
    simp only [List.length_append] at this
    exact this
  unfold tokenSplit at h
  split_ifs at h with h1 h2
  · have hd2 : (rest.dropWhile notBrace).length ≥ 2 := by
      have := congrArg List.length h2
      simp [List.length_take] at this
      omega
    have : rest2 = (rest.dropWhile notBrace).drop 2 := by
      injection h with h'
      exact (congrArg Prod.snd h').symm
    subst this
    simp [List.length_drop]
    omega

/-- A successful token match at a position consumes the two open braces,
the capture and the two close braces. -/
theorem tokenAt_some_length {cs k rest2 : List Char}
    (h : tokenAt cs = some (k, rest2)) : rest2.length + 4 ≤ cs.length := by
  unfold tokenAt at h
  split at h
  · rename_i rest
    have := tokenSplit_some_length h
    simp
    omega
  · simp at h

/-- The result of `resolveGo` does not depend on the fuel, as long as the
fuel is at least the input length. -/
theorem resolveGo_fuel (row : Row) :
    ∀ f1 : Nat, ∀ f2 : Nat, ∀ cs : List Char,
      cs.length ≤ f1 → cs.length ≤ f2 →
      resolveGo row f1 cs = resolveGo row f2 cs := by
  intro f1
  induction f1 with
  | zero =>
    intro f2 cs h1 _
    have hnil : cs = [] := List.length_eq_zero.mp (Nat.le_zero.mp h1)
    subst hnil
    cases f2 <;> simp [resolveGo]
  | succ f1 ih =>
    intro f2 cs h1 h2
    cases cs with
    | nil => cases f2 <;> simp [resolveGo]
    | cons c cs =>
      cases f2 with
      | zero => simp at h2
      | succ f2 =>
        rcases hta : tokenAt (c :: cs) with _ | ⟨k, r2⟩
        · rw [resolveGo_step_none row f1 c cs hta, resolveGo_step_none row f2 c cs hta]
          refine congrArg _ (ih f2 cs ?_ ?_) <;> (simp at h1 h2; omega)
        · have hlen := tokenAt_some_length hta
          rw [resolveGo_step_some row f1 c cs k r2 hta,
            resolveGo_step_some row f2 c cs k r2 hta]
          refine congrArg _ (ih f2 r2 ?_ ?_) <;> (simp at h1 h2 hlen ⊢; omega)

/-- On text of the shape capture-then-two-close-braces the token match
succeeds and returns exactly the capture and the remainder. -/
theorem tokenSplit_token (k ys : List Char) (hk : k ≠ [])
    (hks : ∀ c ∈ k, c ≠ '}') :
    tokenSplit (k ++ '}' :: '}' :: ys) = some (k, ys) := by
  unfold tokenSplit
  rw [takeWhile_nb_append k ('}' :: ys) hks, dropWhile_nb_append k ('}' :: ys) hks]
  simp [hk]

/-- With a close brace immediately after the two open braces (empty
capture), the token match fails. -/
theorem tokenSplit_brace (ys : List Char) : tokenSplit ('}' :: ys) = none := by
  have h : ¬ (notBrace '}' = true) := by decide
  simp [tokenSplit, List.takeWhile_cons_of_neg h]

/-- One full substitution step of the scanner on a well-formed token. -/
theorem resolveList_token (row : Row) (k ys : List Char) (hk : k ≠ [])
    (hks : ∀ c ∈ k, c ≠ '}') :
    ∀ f : Nat, ('{' :: '{' :: (k ++ '}' :: '}' :: ys)).length ≤ f →
      resolveGo row f ('{' :: '{' :: (k ++ '}' :: '}' :: ys))
        = (replVal row k).data ++ resolveGo row ys.length ys := by
  intro f hf
  cases f with
  | zero => simp at hf
  | succ f =>
    have hta : tokenAt ('{' :: '{' :: (k ++ '}' :: '}' :: ys)) = some (k, ys) := by
      show tokenSplit (k ++ '}' :: '}' :: ys) = some (k, ys)
      exact tokenSplit_token k ys hk hks
    rw [resolveGo_step_some row f _ _ k ys hta]
    refine congrArg _ (resolveGo_fuel row f ys.length ys ?_ le_rfl)
    simp at hf
    omega

/-- C1 (amended): for every text and row, the Placeholder Resolver replaces
each double-brace token by the string form of the row's value for the
whitespace-trimmed field name when present (the empty marker's string form
being "nan"), and by the empty string when absent; text outside tokens is
left verbatim; the resolver is a total function and never raises. -/
theorem resolver_subst_correct (row : Row) (k rest : String) (c : Char)
    (s : String) (hk : k.data ≠ []) (hks : ∀ ch ∈ k.data, ch ≠ '}')
    (hc : c ≠ '{') :
    replace_placeholders_dynamic ("\x7b\x7b" ++ k ++ "\x7d\x7d" ++ rest) row
      = lookupStr row (pyStripStr k) ++ replace_placeholders_dynamic rest row
    ∧ replace_placeholders_dynamic ⟨c :: s.data⟩ row
      = ⟨c :: (replace_placeholders_dynamic s row).data⟩ := by
  constructor
  · have hdata : ("\x7b\x7b" ++ k ++ "\x7d\x7d" ++ rest).data
        = '{' :: '{' :: (k.data ++ '}' :: '}' :: rest.data) := by
      simp only [String.data_append]
      simp
    apply String.ext
    rw [String.data_append]
    show resolveGo row ("\x7b\x7b" ++ k ++ "\x7d\x7d" ++ rest).data.length
        ("\x7b\x7b" ++ k ++ "\x7d\x7d" ++ rest).data
      = (lookupStr row (pyStripStr k)).data ++ resolveGo row rest.data.length rest.data
    rw [hdata]
    exact resolveList_token row k.data rest.data hk hks _ le_rfl
  · apply String.ext
    show resolveGo row (⟨c :: s.data⟩ : String).data.length (c :: s.data)
      = c :: resolveGo row s.data.length s.data
    have : (⟨c :: s.data⟩ : String).data.length = s.data.length + 1 := by
      simp
    rw [this]
    exact resolveGo_cons row s.data.length c s.data hc

/-- C1 witness: the amended resolver theorem at a concrete token, field
present with value 7 and a padded field name. -/
theorem resolver_subst_correct_witness :
    replace_placeholders_dynamic ("\x7b\x7b" ++ " Name " ++ "\x7d\x7d" ++ "!") [("Name", Value.i 7)]
      = lookupStr [("Name", Value.i 7)] (pyStripStr " Name ")
        ++ replace_placeholders_dynamic "!" [("Name", Value.i 7)]
    ∧ replace_placeholders_dynamic ⟨'a' :: "bc".data⟩ [("Name", Value.i 7)]
      = ⟨'a' :: (replace_placeholders_dynamic "bc" [("Name", Value.i 7)]).data⟩ :=
  resolver_subst_correct [("Name", Value.i 7)] " Name " "!" 'a' "bc"
    (by decide) (by decide) (by decide)

/-- C1 counterexample: the claim says an empty-marker (NaN) value resolves
to the empty string; on the code a present NaN field resolves to the
string "nan", which is not empty. -/
theorem resolve_na_counterexample :
    replace_placeholders_dynamic "{{x}}" [("x", Value.na)] = "nan"
    ∧ ("nan" : String) ≠ "" := by
  constructor
  · decide
  · decide

/-- C10 (amended): a double-brace token with nothing between the braces is
not recognized and stays verbatim; a token containing only whitespace is
recognized, its trimmed field name is the empty string, and it resolves to
the row's value for the empty-string field when such a field is present
and to the empty string otherwise. -/
theorem empty_whitespace_token_behavior (row : Row) (rest : String) :
    replace_placeholders_dynamic ("{{}}" ++ rest) row
      = "{{}}" ++ replace_placeholders_dynamic rest row
    ∧ replace_placeholders_dynamic ("{{ }}" ++ rest) row
      = lookupStr row "" ++ replace_placeholders_dynamic rest row := by
  constructor
  · apply String.ext
    rw [String.data_append]
    show resolveGo row ("{{}}" ++ rest).data.length ("{{}}" ++ rest).data
      = "{{}}".data ++ resolveGo row rest.data.length rest.data
    have hdata : ("{{}}" ++ rest).data = '{' :: '{' :: '}' :: '}' :: rest.data := by
      simp only [String.data_append]
      rfl
    rw [hdata]
    show resolveGo row (rest.data.length + 4) ('{' :: '{' :: '}' :: '}' :: rest.data)
      = '{' :: '{' :: '}' :: '}' :: resolveGo row rest.data.length rest.data
    have hta1 : tokenAt ('{' :: '{' :: '}' :: '}' :: rest.data) = none := by
      show tokenSplit ('}' :: '}' :: rest.data) = none
      exact tokenSplit_brace ('}' :: rest.data)
    have step1 : resolveGo row (rest.data.length + 4)
        ('{' :: '{' :: '}' :: '}' :: rest.data)
      = '{' :: resolveGo row (rest.data.length + 3) ('{' :: '}' :: '}' :: rest.data) :=
      resolveGo_step_none row _ '{' _ hta1
    have step2 : resolveGo row (rest.data.length + 3) ('{' :: '}' :: '}' :: rest.data)
      = '{' :: resolveGo row (rest.data.length + 2) ('}' :: '}' :: rest.data) :=
      resolveGo_step_none row _ '{' _ (tokenAt_snd_ne '}' ('}' :: rest.data) (by decide))
    have step3 : resolveGo row (rest.data.length + 2) ('}' :: '}' :: rest.data)
      = '}' :: resolveGo row (rest.data.length + 1) ('}' :: rest.data) :=
      resolveGo_cons row _ '}' _ (by decide)
    have step4 : resolveGo row (rest.data.length + 1) ('}' :: rest.data)
      = '}' :: resolveGo row rest.data.length rest.data :=
      resolveGo_cons row _ '}' _ (by decide)
    rw [step1, step2, step3, step4]
  · apply String.ext
    rw [String.data_append]
    show resolveGo row ("{{ }}" ++ rest).data.length ("{{ }}" ++ rest).data
      = (lookupStr row "").data ++ resolveGo row rest.data.length rest.data
    have hdata : ("{{ }}" ++ rest).data
        = '{' :: '{' :: ([' '] ++ '}' :: '}' :: rest.data) := by
      simp only [String.data_append]
      rfl
    rw [hdata]
    have := resolveList_token row [' '] rest.data (by decide) (by decide)
      ('{' :: '{' :: ([' '] ++ '}' :: '}' :: rest.data)).length le_rfl
    rw [this]
    rfl

/-- C10 counterexample: for a row that does contain a field named by the
empty string, the whitespace-only token resolves to that field's value,
not to the empty string as the claim states for every row. -/
theorem empty_token_counterexample :
    replace_placeholders_dynamic "{{ }}" [("", Value.s "X")] = "X"
    ∧ ("X" : String) ≠ "" := by
  constructor
  · decide
  · decide

/-! ### Sanitizer and filename formatter -/

theorem subResGo_clean :
    ∀ (l : List Char) (b : Bool) (c : Char), c ∈ subResGo l b → isReserved c = false := by
  intro l
  induction l with
  | nil => simp [subResGo]
  | cons a l ih =>
    intro b c hc
    by_cases ha : isReserved a = true
    · cases b with
      | true =>
        simp only [subResGo, if_pos ha, if_pos rfl] at hc
        exact ih true c hc
      | false =>
        simp only [subResGo, if_pos ha] at hc
        rcases List.mem_cons.mp hc with h | h
        · subst h; decide
        · exact ih true c h
    · have ha' : isReserved a = false := by
        cases h : isReserved a
        · rfl
        · exact absurd h ha
      simp only [subResGo, ha', Bool.false_eq_true, if_false] at hc
      rcases List.mem_cons.mp hc with h | h
      · subst h; exact ha'
      · exact ih false c h

theorem subResGo_clean_prefix :
    ∀ (s rest : List Char), (∀ c ∈ s, isReserved c = false) →
      subResGo (s ++ rest) false = s ++ subResGo rest false := by
  intro s
  induction s with
  | nil => simp
  | cons a s ih =>
    intro rest hs
    have ha : isReserved a = false := hs a (by simp)
    simp only [List.cons_append, subResGo, ha, Bool.false_eq_true, if_false]
    exact congrArg (a :: ·) (ih rest (fun c hc => hs c (by simp [hc])))

theorem subResGo_absorb :
    ∀ (r t : List Char), (∀ c ∈ r, isReserved c = true) →
      subResGo (r ++ t) true = subResGo t true := by
  intro r
  induction r with
  | nil => simp
  | cons a r ih =>
    intro t hr
    have ha : isReserved a = true := hr a (by simp)
    simp only [List.cons_append, subResGo, ha, if_pos rfl]
    exact ih t (fun c hc => hr c (by simp [hc]))

theorem subResGo_run :
    ∀ (r t : List Char), r ≠ [] → (∀ c ∈ r, isReserved c = true) →
      subResGo (r ++ t) false = '_' :: subResGo t true := by
  intro r
  cases r with
  | nil => intro t h; exact absurd rfl h
  | cons a r =>
    intro t _ hr
    have ha : isReserved a = true := hr a (by simp)
    simp only [List.cons_append, subResGo, ha, if_pos rfl]
    exact congrArg ('_' :: ·) (subResGo_absorb r t (fun c hc => hr c (by simp [hc])))

theorem subResGo_true_false (t : List Char)
    (ht : ∀ c ∈ t.take 1, isReserved c = false) :
    subResGo t true = subResGo t false := by
  cases t with
  | nil => rfl
  | cons a t =>
    have ha : isReserved a = false := ht a (by simp)
    simp [subResGo, ha]

theorem mem_dropWhile_imp {p : Char → Bool} :
    ∀ {l : List Char} {c : Char}, c ∈ l.dropWhile p → c ∈ l := by
  intro l
  induction l with
  | nil => simp
  | cons a l ih =>
    intro c hc
    by_cases ha : p a
    · rw [List.dropWhile_cons_of_pos ha] at hc
      exact List.mem_cons_of_mem a (ih hc)
    · rwa [List.dropWhile_cons_of_neg ha] at hc

theorem mem_pyStrip {l : List Char} {c : Char} (h : c ∈ pyStrip l) : c ∈ l := by
  unfold pyStrip at h
  rw [List.mem_reverse] at h
  have h2 := mem_dropWhile_imp h
  rw [List.mem_reverse] at h2
  exact mem_dropWhile_imp h2

theorem sanitize_clean (name : String) :
    ∀ c ∈ (sanitize_filename name).data, isReserved c = false := by
  intro c hc
  unfold sanitize_filename at hc
  by_cases h : (pyStrip (subResGo name.data false)).isEmpty
  · rw [if_pos h] at hc
    have hall : ∀ ch ∈ "letter".data, isReserved ch = false := by decide
    exact hall c hc
  · rw [if_neg h] at hc
    exact subResGo_clean name.data false c (mem_pyStrip hc)

theorem format_clean (pattern : String) (row : Row) :
    ∀ c ∈ (format_filename_from_pattern pattern row).data, isReserved c = false := by
  intro c hc
  unfold format_filename_from_pattern at hc
  by_cases h : endsWithDocx (substSanitized pattern row)
  · rw [if_pos h] at hc
    exact sanitize_clean _ c hc
  · rw [if_neg h] at hc
    rw [String.data_append] at hc
    rcases List.mem_append.mp hc with h2 | h2
    · exact sanitize_clean _ c h2
    · have hall : ∀ ch ∈ ".docx".data, isReserved ch = false := by decide
      exact hall c h2

/-- C6 counterexample: on "a//b" the code collapses the run of two slashes
to a single underscore, while per-character replacement as the claim
states it would give two underscores. -/
theorem sanitize_per_char_counterexample :
    sanitize_filename "a//b" = "a_b"
    ∧ sanitizeSpecPerChar "a//b" = "a__b"
    ∧ sanitize_filename "a//b" ≠ sanitizeSpecPerChar "a//b" := by
  refine ⟨by decide, by decide, by decide⟩

/-- C6 (amended): the sanitizer replaces every maximal run of reserved
characters with a single underscore (each reserved character is removed,
adjacent ones sharing one underscore), strips surrounding whitespace, and
substitutes the fallback basename "letter" when the result is empty;
consequently the sanitizer's and the Filename Formatter's outputs contain
no reserved character. -/
theorem sanitize_run_collapse (s r t : List Char) (name pattern : String)
    (row : Row) (hr : r ≠ []) (hrres : ∀ ch ∈ r, isReserved ch = true)
    (hs : ∀ ch ∈ s, isReserved ch = false)
    (ht : ∀ ch ∈ t.take 1, isReserved ch = false) :
    subResGo (s ++ r ++ t) false = s ++ '_' :: subResGo t false
    ∧ (∀ ch ∈ (sanitize_filename name).data, isReserved ch = false)
    ∧ (pyStrip (subResGo name.data false) = [] → sanitize_filename name = "letter")
    ∧ (pyStrip (subResGo name.data false) ≠ [] →
        sanitize_filename name = ⟨pyStrip (subResGo name.data false)⟩)
    ∧ (∀ ch ∈ (format_filename_from_pattern pattern row).data, isReserved ch = false) := by
  refine ⟨?_, sanitize_clean name, ?_, ?_, format_clean pattern row⟩
  · rw [List.append_assoc, subResGo_clean_prefix s (r ++ t) hs,
      subResGo_run r t hr hrres, subResGo_true_false t ht]
  · intro h
    simp [sanitize_filename, h]
  · intro h
    have : ¬ (pyStrip (subResGo name.data false)).isEmpty := by
      simpa [List.isEmpty_iff] using h
    simp only [sanitize_filename, if_neg this]

/-- C6 witness: the amended sanitizer theorem at "a//b", with run "//"
between clean "a" and "b", and a concrete pattern. -/
theorem sanitize_run_collapse_witness :
    subResGo (['a'] ++ ['/', '/'] ++ ['b']) false = ['a'] ++ '_' :: subResGo ['b'] false
    ∧ (∀ ch ∈ (sanitize_filename "a//b").data, isReserved ch = false)
    ∧ (pyStrip (subResGo "a//b".data false) = [] → sanitize_filename "a//b" = "letter")
    ∧ (pyStrip (subResGo "a//b".data false) ≠ [] →
        sanitize_filename "a//b" = ⟨pyStrip (subResGo "a//b".data false)⟩)
    ∧ (∀ ch ∈ (format_filename_from_pattern "x" []).data, isReserved ch = false) :=
  sanitize_run_collapse ['a'] ['/', '/'] ['b'] "a//b" "x" []
    (by decide) (by decide) (by decide) (by decide)

/-- Appending the suffix makes the case-insensitive suffix test succeed. -/
theorem endsWithDocx_append (s : String) : endsWithDocx (s ++ ".docx") = true := by
  simp only [endsWithDocx, decide_eq_true_eq]
  have hld : lowerData (s ++ ".docx") = lowerData s ++ ".docx".data := by
    unfold lowerData
    rw [String.data_append, List.map_append]
    have : ".docx".data.map Char.toLower = ".docx".data := by decide
    rw [this]
  rw [hld]
  have hlen : (lowerData s ++ ".docx".data).length - 5 = (lowerData s).length := by
    simp [List.length_append]
  rw [hlen]
  exact List.drop_left (lowerData s) ".docx".data

/-- C2 (confirmed): for every pattern and row the formatter's output ends
with ".docx" under case-insensitive comparison, and the suffix is appended
only when the substituted-and-sanitized name does not already end with it
(so a name that already carries the suffix is returned unchanged, never
double-suffixed). -/
theorem filename_suffix_exactly_once (pattern : String) (row : Row) :
    endsWithDocx (format_filename_from_pattern pattern row) = true
    ∧ (endsWithDocx (substSanitized pattern row) = true →
        format_filename_from_pattern pattern row = substSanitized pattern row)
    ∧ (endsWithDocx (substSanitized pattern row) = false →
        format_filename_from_pattern pattern row
          = substSanitized pattern row ++ ".docx") := by
  by_cases h : endsWithDocx (substSanitized pattern row)
  · have hfmt : format_filename_from_pattern pattern row = substSanitized pattern row := by
      simp [format_filename_from_pattern, h]
    refine ⟨by rw [hfmt]; exact h, fun _ => hfmt, fun hfalse => ?_⟩
    rw [h] at hfalse
    cases hfalse
  · have hfmt : format_filename_from_pattern pattern row
        = substSanitized pattern row ++ ".docx" := by
      simp [format_filename_from_pattern, h]
    refine ⟨by rw [hfmt]; exact endsWithDocx_append _, fun htrue => ?_, fun _ => hfmt⟩
    rw [htrue] at h
    cases h rfl

/-- C2 witness: a pattern already carrying the suffix is returned
unchanged and still passes the suffix test. -/
theorem filename_suffix_exactly_once_witness :
    endsWithDocx (format_filename_from_pattern "x.docx" []) = true
    ∧ format_filename_from_pattern "x.docx" [] = substSanitized "x.docx" [] :=
  ⟨(filename_suffix_exactly_once "x.docx" []).1,
   (filename_suffix_exactly_once "x.docx" []).2.1 (by decide)⟩

/-! ### Group dispatch -/

/-- C3 (confirmed): dispatch converts the row's group value to string form
and compares it for exact equality against the blue, green and yellow
labels in that fixed priority order, first match winning; on no match the
fallback policy returns the blue template while the skip policy signals
NotFound, and the batch loop records such a row as skipped and continues
instead of aborting. -/
theorem group_dispatch_priority (row : Row) (gcol bl gr ye tb tg ty : String)
    (cfg : BatchCfg) (r : Row) (rs : List Row)
    (hnf : cfgDispatch cfg r = DispatchResult.notFound) :
    dispatchSkip row gcol bl gr ye tb tg ty
      = (match firstMatch (groupVal row gcol) [(bl, tb), (gr, tg), (ye, ty)] with
         | some t => DispatchResult.found t
         | none => DispatchResult.notFound)
    ∧ dispatchFallback row gcol bl gr ye tb tg ty
      = (firstMatch (groupVal row gcol) [(bl, tb), (gr, tg), (ye, ty)]).getD tb
    ∧ runBatch cfg (r :: rs)
      = (runBatch cfg rs).map
          (fun res => (res.1, skipId r :: res.2.1, res.2.2)) := by
  refine ⟨?_, ?_, ?_⟩
  · simp only [dispatchSkip, firstMatch]
    split_ifs <;> rfl
  · simp only [dispatchFallback, firstMatch]
    split_ifs <;> rfl
  · simp [runBatch, hnf]

/-- C3 witness: dispatch priority at a concrete row whose group value
matches no configured label (skip policy yields NotFound and the batch
loop records the skip). -/
theorem group_dispatch_priority_witness :
    dispatchSkip [("G", Value.s "x")] "G" "x" "y" "z" "A" "B" "C"
      = (match firstMatch (groupVal [("G", Value.s "x")] "G")
            [("x", "A"), ("y", "B"), ("z", "C")] with
         | some t => DispatchResult.found t
         | none => DispatchResult.notFound)
    ∧ dispatchFallback [("G", Value.s "x")] "G" "x" "y" "z" "A" "B" "C"
      = (firstMatch (groupVal [("G", Value.s "x")] "G")
          [("x", "A"), ("y", "B"), ("z", "C")]).getD "A"
    ∧ runBatch cfgDup [[("G", Value.s "Z"), ("FullName", Value.s "Bob")]]
      = (runBatch cfgDup []).map
          (fun res => (res.1,
            skipId [("G", Value.s "Z"), ("FullName", Value.s "Bob")] :: res.2.1,
            res.2.2)) :=
  group_dispatch_priority [("G", Value.s "x")] "G" "x" "y" "z" "A" "B" "C"
    cfgDup [("G", Value.s "Z"), ("FullName", Value.s "Bob")] [] (by decide)

/-! ### Letter composition -/

theorem foldl_append_one {α β : Type} (f : α → β) :
    ∀ (l : List α) (init : List β),
      l.foldl (fun d x => d ++ [f x]) init = init ++ l.map f := by
  intro l
  induction l with
  | nil => simp
  | cons a l ih =>
    intro init
    simp only [List.foldl_cons, List.map_cons]
    rw [ih (init ++ [f a])]
    simp

/-- C7 (confirmed): the composed letter body consists, in order, of one
bold salutation paragraph, one paragraph per configured header field in
exactly the caller-given order (duplicates rendered once per occurrence,
empty-marker values as the empty string), one blank spacer paragraph, then
one paragraph per line of the placeholder-resolved template body with
blank lines preserved as empty paragraphs. -/
theorem letter_body_structure (row : Row) (salutation : String)
    (fields : List String) (tpl : String) :
    build_letter_paras row salutation fields tpl
      = (salutation, true)
          :: (fields.map (fun col => (headerVal row col, false))
            ++ [("", false)]
            ++ (pySplitlines (replace_placeholders_dynamic tpl row)).map
                (fun line => (line, false))) := by
  simp [build_letter_paras, add_ltr_paragraph, foldl_append_one]

/-! ### Page layout and banners -/

theorem Inches_page_width (s : Sect) :
    page_width_in s * EMU_PER_INCH = s.pageWidth := by
  unfold page_width_in EMU_PER_INCH
  rw [div_mul_cancel₀]
  norm_num

/-- C5 (confirmed): in both app variants, whenever edge-to-edge banners are
requested every inserted banner has width equal to the full physical page
width, the body-text margins in effect after composition equal the
caller-specified text margins independent of the blank document's
defaults, and the header/footer distances are left at zero. -/
theorem edge_to_edge_layout (blank : Sect) (l r t b tm : Rat)
    (top bottom : BannerInput) :
    (build_letter_layout_v1 blank l r t b top bottom).sect.leftMargin = Inches l
    ∧ (build_letter_layout_v1 blank l r t b top bottom).sect.rightMargin = Inches r
    ∧ (build_letter_layout_v1 blank l r t b top bottom).sect.topMargin = Inches t
    ∧ (build_letter_layout_v1 blank l r t b top bottom).sect.bottomMargin = Inches b
    ∧ (build_letter_layout_v1 blank l r t b top bottom).sect.headerDistance = 0
    ∧ (build_letter_layout_v1 blank l r t b top bottom).sect.footerDistance = 0
    ∧ (build_letter_layout_v1 blank l r t b top bottom).headerPicWidths
        = (if top.present then [blank.pageWidth] else [])
    ∧ (build_letter_layout_v1 blank l r t b top bottom).footerPicWidths
        = (if bottom.present then [blank.pageWidth] else [])
    ∧ (build_letter_layout_v2 blank top bottom true tm).sect.leftMargin = Inches tm
    ∧ (build_letter_layout_v2 blank top bottom true tm).sect.rightMargin = Inches tm
    ∧ (build_letter_layout_v2 blank top bottom true tm).sect.topMargin = Inches tm
    ∧ (build_letter_layout_v2 blank top bottom true tm).sect.bottomMargin = Inches tm
    ∧ (build_letter_layout_v2 blank top bottom true tm).sect.headerDistance = 0
    ∧ (build_letter_layout_v2 blank top bottom true tm).sect.footerDistance = 0
    ∧ (build_letter_layout_v2 blank top bottom true tm).headerPicWidths
        = (if top.present then [blank.pageWidth] else [])
    ∧ (build_letter_layout_v2 blank top bottom true tm).footerPicWidths
        = (if bottom.present then [blank.pageWidth] else []) := by
  unfold build_letter_layout_v1 build_letter_layout_v2 add_fullwidth_banners
    add_banner_to_header_footer set_section_margins
  simp [Inches_page_width, Inches]

/-! ### Batch generation -/

/-- Inversion of a completed batch run: whenever the loop finishes without
an uncaught exception, the count is the number of matched rows, the
skipped list records the unmatched rows' identifiers in dataset order, and
the archive gets one entry per matched row in dataset order. -/
theorem runBatch_ok :
    ∀ (rows : List Row) (cfg : BatchCfg)
      (res : Nat × List String × List (String × Letter)),
      runBatch cfg rows = Except.ok res →
      res = ((rows.filter (fun r => matchesRow cfg r)).length,
             (rows.filter (fun r => !matchesRow cfg r)).map skipId,
             (rows.filter (fun r => matchesRow cfg r)).map (batchEntry cfg)) := by
  intro rows
  induction rows with
  | nil =>
    intro cfg res h
    simp only [runBatch, Except.ok.injEq] at h
    subst h
    simp
  | cons r rs ih =>
    intro cfg res h
    rcases hd : cfgDispatch cfg r with t | _
    · have hm : matchesRow cfg r = true := by simp [matchesRow, hd]
      have hb2 : batchEntry cfg r
          = (format_filename_from_pattern cfg.filenamePattern r, rowLetter cfg r t) := by
        simp [batchEntry, rowTpl, hd]
      simp only [runBatch, hd] at h
      rcases hbr : bannersResult (readUpload cfg.topStream).1
          (readUpload cfg.bottomStream).1 with e | u
      · simp [rowLetterResult, hbr, Except.map] at h
      · simp only [rowLetterResult, hbr, Except.map] at h
        rcases hrec : runBatch
            { cfg with topStream := (readUpload cfg.topStream).2,
                       bottomStream := (readUpload cfg.bottomStream).2 } rs
          with e' | res'
        · rw [hrec] at h
          simp [Except.map] at h
        · rw [hrec] at h
          simp only [Except.map, Except.ok.injEq] at h
          -- the recursive configuration differs from `cfg` only in the stream
          -- fields, which no function below reads: the type ascription holds
          -- definitionally
          have hres2 : res'
              = ((rs.filter (fun r => matchesRow cfg r)).length,
                 (rs.filter (fun r => !matchesRow cfg r)).map skipId,
                 (rs.filter (fun r => matchesRow cfg r)).map (batchEntry cfg)) :=
            ih { cfg with topStream := (readUpload cfg.topStream).2,
                          bottomStream := (readUpload cfg.bottomStream).2 } res' hrec
          subst h
          rw [hres2]
          simp [List.filter_cons, hm, hb2]
    · have hm : matchesRow cfg r = false := by simp [matchesRow, hd]
      simp only [runBatch, hd] at h
      rcases hrec : runBatch cfg rs with e' | res'
      · rw [hrec] at h
        simp [Except.map] at h
      · rw [hrec] at h
        simp only [Except.map, Except.ok.injEq] at h
        have hres' := ih cfg res' hrec
        subst h
        rw [hres']
        simp [List.filter_cons, hm]

/-- C4 (code bug): both rows match the Blue label, so the claim requires a
completed run with count 2 and a two-entry archive; but the batch loop
re-reads the banner upload stream per row, the stream is exhausted after
its first read (or already by the preview, which reads it earlier in the
same script rerun), `add_picture` receives the empty b"" payload and
raises UnrecognizedImageError, and the run aborts delivering no count, no
skipped list and no archive. -/
theorem batch_banner_abort :
    matchesRow cfgUpload rowDupA = true
    ∧ matchesRow cfgUpload rowDupB = true
    ∧ runBatch cfgUpload [rowDupA, rowDupB] = Except.error ()
    ∧ runBatch { cfgUpload with topStream := some { img := 0, consumed := true } }
        [rowDupA] = Except.error () := by
  refine ⟨by decide, by decide, by decide, by decide⟩

theorem filter_map_comm {α β : Type} (g : α → β) (p : β → Bool) :
    ∀ l : List α, (l.map g).filter p = (l.filter (fun a => p (g a))).map g := by
  intro l
  induction l with
  | nil => simp
  | cons a l ih =>
    cases h : p (g a) <;> simp [List.filter_cons, h, ih]

theorem filter_filter_comm {α : Type} (p q : α → Bool) :
    ∀ l : List α, (l.filter p).filter q = l.filter (fun a => p a && q a) := by
  intro l
  induction l with
  | nil => simp
  | cons a l ih =>
    cases hp : p a <;> cases hq : q a <;>
      simp [List.filter_cons, hp, hq, ih]

theorem getLast?_map_comm {α β : Type} (g : α → β) :
    ∀ l : List α, (l.map g).getLast? = l.getLast?.map g := by
  intro l
  induction l with
  | nil => rfl
  | cons a l ih =>
    cases l with
    | nil => rfl
    | cons b l =>
      simp only [List.map_cons, List.getLast?_cons_cons]
      simpa using ih

/-- C9 (amended): the batch loop performs no filename deduplication: a
delivered archive holds one raw entry per matched row, even under equal
names; reading the archive at a name (as zip name lookup and extraction
do) yields the letter of the last row that produced that name — last
write wins. -/
theorem archive_last_write_wins (cfg : BatchCfg) (rows : List Row) (n : String)
    (res : Nat × List String × List (String × Letter))
    (h : runBatch cfg rows = Except.ok res) :
    res.2.2 = (rows.filter (fun r => matchesRow cfg r)).map (batchEntry cfg)
    ∧ archiveRead res.2.2 n
      = ((rows.filter (fun r => matchesRow cfg r
            && (format_filename_from_pattern cfg.filenamePattern r == n))).getLast?).map
          (fun r => rowLetter cfg r (rowTpl cfg r)) := by
  have hres := runBatch_ok rows cfg res h
  subst hres
  constructor
  · rfl
  · unfold archiveRead
    dsimp only
    rw [filter_map_comm (batchEntry cfg) (fun e => e.1 == n)]
    rw [filter_filter_comm]
    rw [getLast?_map_comm]
    rw [Option.map_map]
    rfl

/-- C9 witness: the duplicate-filename run completes, and the
no-deduplication and last-write-wins facts hold at its delivered result. -/
theorem archive_last_write_wins_witness :
    resDup.2.2
      = ([rowDupA, rowDupB].filter (fun r => matchesRow cfgDup r)).map (batchEntry cfgDup)
    ∧ archiveRead resDup.2.2 "out.docx"
      = (([rowDupA, rowDupB].filter (fun r => matchesRow cfgDup r
            && (format_filename_from_pattern cfgDup.filenamePattern r == "out.docx"))).getLast?).map
          (fun r => rowLetter cfgDup r (rowTpl cfgDup r)) :=
  archive_last_write_wins cfgDup [rowDupA, rowDupB] "out.docx" resDup (by decide)

/-- C9 counterexample: the duplicate-filename run completes and leaves TWO
raw entries under that name in the archive, not a single one as the claim
states; name lookup does return the later row's letter. -/
theorem archive_duplicate_counterexample :
    runBatch cfgDup [rowDupA, rowDupB] = Except.ok resDup
    ∧ (resDup.2.2.filter (fun e => e.1 == "out.docx")).length = 2
    ∧ ¬ (resDup.2.2.filter (fun e => e.1 == "out.docx")).length = 1
    ∧ archiveRead resDup.2.2 "out.docx"
        = some (rowLetter cfgDup rowDupB (rowTpl cfgDup rowDupB)) := by
  refine ⟨by decide, by decide, by decide, by decide⟩

/-! ### Batch preconditions -/

/-- C8 (confirmed): batch generation with no dataset loaded, or with a
selected group column absent from the dataset's columns, reports a
user-facing error and does not proceed: the result is an error carrying no
count, no skipped list and no archive. -/
theorem batch_precondition_errors (cfg : BatchCfg) (df : Dataset)
    (h : cfg.gcol ∉ df.cols) :
    generate_all none cfg = Except.error "Please upload an Excel file first."
    ∧ generate_all (some df) cfg = Except.error "Group column selection is invalid." := by
  constructor
  · rfl
  · simp [generate_all, h]

/-- C8 witness: the precondition errors at a concrete configuration whose
group column "G" is not among the dataset columns. -/
theorem batch_precondition_errors_witness :
    generate_all none cfgDup = Except.error "Please upload an Excel file first."
    ∧ generate_all (some { cols := ["A"], rows := [] }) cfgDup
      = Except.error "Group column selection is invalid." :=
  batch_precondition_errors cfgDup { cols := ["A"], rows := [] } (by decide)

end MailMerge
